import Mathlib

/-!
# Codecks card creator

A shallow embedding of `Source/Codecks/Private/CodecksCardCreator.cpp` and
`Source/Codecks/Public/CodecksCardCreator.h`.

Conventions of the embedding:

* an `FString` is a Lean `String`, read as the sequence of its UTF-16 code units
  (`TCHAR`) where the code indexes it; a byte buffer `TArray<uint8>` is a `List Nat`,
  and every conversion to `uint8` is written `% 256`; the enum `CodecksFileType` is
  a number with named values, so that it has values outside its names, and the
  other enums have the values of their declaration;
* the two delegates of a call are observed through the ordered trace of `Effect`s
  a handler produces: `Effect.errorCallback m` stands for
  `errorCallback.ExecuteIfBound(m)`, `Effect.createdCallback s` for
  `createdCallback.ExecuteIfBound(s)` and `Effect.ProcessRequest r` for
  `pRequest->ProcessRequest()` on the request `r`;
* what the plugin takes from the engine and the C library without defining it is a
  parameter of the embedding: the JSON reader (`Deserialize`), `FString::Contains`,
  `FString::TrimStartAndEnd`, the values returned by `rand()`, the image compressor
  and the way a multicast delegate runs its handlers.  The comparison `==` of two
  `FString`s, the comparison of field names in the map of a JSON object and the
  conversions behind the JSON getters `TryGetStringField` and `TryGetBoolField` are
  the fields of an `Engine`, of which nothing is assumed.  Only where a trace is
  computed at a sample input is the engine a `LawfulEngine`: its comparisons accept
  equal strings and no strings that differ by more than the case of their ASCII
  letters, and a getter returns a value of its own type as it is.  The JSON document
  tree is modelled concretely; the array and object getters succeed on an array and
  on an object only.
-/

namespace Codecks

/-! ## Data model (`CodecksCardCreator.h`) -/

abbrev FString := String

inductive CodecksSeverity where
  | None
  | Low
  | High
  | Critical
  deriving DecidableEq, Repr

/-- The enum `CodecksFileType : uint8`.  A value of the type is any number; the names
are those of the header, numbered from 0 in the order of their declaration. -/
structure CodecksFileType where
  value : Nat
  deriving DecidableEq, Repr

def CodecksFileType.Binary : CodecksFileType := { value := 0 }

def CodecksFileType.PlainText : CodecksFileType := { value := 1 }

def CodecksFileType.JSON : CodecksFileType := { value := 2 }

def CodecksFileType.PNG : CodecksFileType := { value := 3 }

def CodecksFileType.JPG : CodecksFileType := { value := 4 }

inductive CodecksCardCreationStatus where
  /-- Card got created fully -/
  | Success
  /-- Card got created, but attachments missing -/
  | Partially
  /-- Card got not created -/
  | Fail
  deriving DecidableEq, Repr

structure FCodecksFileInfo where
  filename : FString
  type : CodecksFileType := CodecksFileType.PlainText
  data : List Nat
  deriving DecidableEq, Repr

/-! ## Engine types used by the plugin -/

/-- The request status of the engine. -/
inductive EHttpRequestStatus where
  | NotStarted
  | Processing
  | Failed
  | Failed_ConnectionError
  | Succeeded
  deriving DecidableEq, Repr

/-- What the plugin sets on an `IHttpRequest` before it processes it. -/
structure HttpRequest where
  Verb : FString
  URL : FString
  Headers : List (FString × FString)
  Content : List Nat
  deriving DecidableEq, Repr

/-- The request returned by `FHttpModule::CreateRequest`. -/
def CreateRequest : HttpRequest :=
  { Verb := "", URL := "", Headers := [], Content := [] }

def HttpRequest.SetVerb (r : HttpRequest) (verb : FString) : HttpRequest :=
  { r with Verb := verb }

def HttpRequest.SetURL (r : HttpRequest) (url : FString) : HttpRequest :=
  { r with URL := url }

def HttpRequest.SetHeader (r : HttpRequest) (name value : FString) : HttpRequest :=
  { r with Headers := (r.Headers.filter (fun h => !(h.1 == name))) ++ [(name, value)] }

def HttpRequest.SetContent (r : HttpRequest) (payload : List Nat) : HttpRequest :=
  { r with Content := payload }

/-- A JSON document value.  The numeric payload of a number is never inspected by the
plugin. -/
inductive FJsonValue where
  | Null
  | Boolean (Value : Bool)
  | Number (Value : Int)
  | Str (Value : FString)
  | Arr (Value : List FJsonValue)
  | Obj (Values : List (FString × FJsonValue))

/-- The fields of an `FJsonObject`, a map from field name to value. -/
abbrev FJsonObject := List (FString × FJsonValue)

/-- What the plugin uses of the engine's strings and JSON values without seeing how it
is done.  Nothing is assumed of it. -/
structure Engine where
  /-- the comparison `FString::operator==` -/
  Equals : FString → FString → Bool
  /-- the comparison of a stored field name with the name asked for, in the map of an
  `FJsonObject` -/
  KeyEquals : FString → FString → Bool
  /-- the conversion `FJsonValue::TryGetString` behind `TryGetStringField` -/
  TryGetString : FJsonValue → Option FString
  /-- the conversion `FJsonValue::TryGetBool` behind `TryGetBoolField` -/
  TryGetBool : FJsonValue → Option Bool

/-- An engine of which this much is known: its comparisons accept equal strings and no
strings that differ by more than the case of their ASCII letters, and its getters return
a value of their own type as it is. -/
structure LawfulEngine extends Engine where
  /-- a string is equal to itself -/
  Equals_self : ∀ a : FString, Equals a a = true
  /-- strings that compare equal differ at most by the case of their ASCII letters -/
  Equals_case : ∀ a b : FString, Equals a b = true →
    a.toList.map Char.toLower = b.toList.map Char.toLower
  /-- a field name is equal to itself -/
  KeyEquals_self : ∀ a : FString, KeyEquals a a = true
  /-- field names that compare equal differ at most by the case of their ASCII letters -/
  KeyEquals_case : ∀ a b : FString, KeyEquals a b = true →
    a.toList.map Char.toLower = b.toList.map Char.toLower
  /-- a string value is returned as it is -/
  TryGetString_Str : ∀ s : FString, TryGetString (FJsonValue.Str s) = some s
  /-- a boolean value is returned as it is -/
  TryGetBool_Boolean : ∀ b : Bool, TryGetBool (FJsonValue.Boolean b) = some b

/-- The field stored under a name, as the map of the object finds it. -/
def FJsonObject.TryGetField (obj : FJsonObject) (E : Engine) (FieldName : FString) :
    Option FJsonValue :=
  (obj.find? (fun kv => E.KeyEquals kv.1 FieldName)).map (fun kv => kv.2)

def FJsonObject.TryGetBoolField (obj : FJsonObject) (E : Engine) (FieldName : FString) :
    Option Bool :=
  match obj.TryGetField E FieldName with
  | some Field => E.TryGetBool Field
  | none => none

def FJsonObject.TryGetStringField (obj : FJsonObject) (E : Engine) (FieldName : FString) :
    Option FString :=
  match obj.TryGetField E FieldName with
  | some Field => E.TryGetString Field
  | none => none

def FJsonObject.TryGetArrayField (obj : FJsonObject) (E : Engine) (FieldName : FString) :
    Option (List FJsonValue) :=
  match obj.TryGetField E FieldName with
  | some (FJsonValue.Arr a) => some a
  | _ => none

def FJsonObject.TryGetObjectField (obj : FJsonObject) (E : Engine) (FieldName : FString) :
    Option FJsonObject :=
  match obj.TryGetField E FieldName with
  | some (FJsonValue.Obj o) => some o
  | _ => none

/-- The engine's `FJsonValue::AsObject`: the object of an object value, the empty object
otherwise. -/
def FJsonValue.AsObject : FJsonValue → FJsonObject
  | FJsonValue.Obj o => o
  | _ => []

/-- The engine's `FJsonObject::SetField`: the value replaces the one stored under the name,
if any, and is added otherwise. -/
def FJsonObject.SetField (obj : FJsonObject) (FieldName : FString) (v : FJsonValue) :
    FJsonObject :=
  if obj.any (fun kv => kv.1 == FieldName) then
    obj.map (fun kv => if kv.1 == FieldName then (FieldName, v) else kv)
  else
    obj ++ [(FieldName, v)]

def FJsonObject.SetStringField (obj : FJsonObject) (FieldName : FString) (s : FString) :
    FJsonObject :=
  obj.SetField FieldName (FJsonValue.Str s)

def FJsonObject.SetArrayField (obj : FJsonObject) (FieldName : FString)
    (a : List FJsonValue) : FJsonObject :=
  obj.SetField FieldName (FJsonValue.Arr a)

/-- What a completion handler does to the outside, in order. -/
inductive Effect where
  | errorCallback (ErrorMessage : FString)
  | createdCallback (status : CodecksCardCreationStatus)
  | ProcessRequest (request : HttpRequest)
  deriving DecidableEq, Repr

/-! ## Byte buffer helpers (`CodecksCardCreator.cpp`, lines 15-47) -/

def ENDL : String := "\r\n"

/-- The first `len` characters of `str`, each stored as a `uint8`, go to the end of
`data`. -/
def append_data (data : List Nat) (str : List Char) (len : Nat) : List Nat :=
  data ++ (str.take len).map (fun c => c.toNat % 256)

def append_ansi (data : List Nat) (str : String) : List Nat :=
  let len := str.toList.length
  append_data data str.toList len

/-- The UTF-16 code units of a character: itself up to `U+FFFF`, a surrogate pair
above. -/
def utf16Units (c : Char) : List Nat :=
  if c.toNat < 0x10000 then [c.toNat]
  else [0xD800 + (c.toNat - 0x10000) / 0x400, 0xDC00 + (c.toNat - 0x10000) % 0x400]

/-- The `TCHAR`s of an `FString`, those that `str[i]` indexes and `str.Len()` counts. -/
def FString.TCHARs (str : FString) : List Nat :=
  str.toList.flatMap utf16Units

def append_fstring (data : List Nat) (str : FString) : List Nat :=
  let len := (FString.TCHARs str).length
  data ++ ((FString.TCHARs str).take len).map (fun c => c % 256)

/-- The engine's `TArray::Reset`: the buffer is emptied. -/
def Reset (_data : List Nat) : List Nat := []

/-! ## `ProcessCardCreationResponse` (lines 49-267) -/

/-- The boundary string (lines 80-90): `TERMINATOR` and 32 digits, the `i`-th of them
picked by the `i`-th value `rand i` that `rand()` returns. -/
def terminator (rand : Nat → Nat) : String :=
  "TERMINATOR" ++
    String.mk ((List.range 32).map (fun i => "0123456789".toList.getD (rand i % 10) '0'))

/-- The completion handler bound to an upload request (lines 234-261). -/
def UploadComplete (Contains : FString → FString → Bool) (connectedSuccessfully : Bool)
    (status : EHttpRequestStatus) (content : FString) : List Effect :=
  let (ok, out) :=
    if connectedSuccessfully then
      let message := content
      if Contains message "Error" then
        (false, [Effect.errorCallback ("Error Uploading File: " ++ message ++ ".")])
      else
        (true, [])
    else
      if status = EHttpRequestStatus.Failed_ConnectionError then
        (false, [Effect.errorCallback "Connection failed."])
      else
        (false, [Effect.errorCallback "Request failed."])
  out ++ [Effect.createdCallback
    (if ok then CodecksCardCreationStatus.Success else CodecksCardCreationStatus.Partially)]

def fieldNames : List String :=
  ["key", "Cache-Control", "acl", "bucket", "X-Amz-Algorithm", "X-Amz-Credential",
   "X-Amz-Date", "Policy", "X-Amz-Signature"]

/-- The loop over `fieldNames` (lines 169-185). -/
def appendFields (E : Engine) (terminator : String) (fields : FJsonObject) :
    List String → List Nat → List Nat
  | [], payload => payload
  | fieldName :: rest, payload =>
    let key : FString := "" ++ fieldName
    match fields.TryGetStringField E key with
    | some value =>
      let payload := append_ansi payload "--"
      let payload := append_ansi payload terminator
      let payload := append_ansi payload ENDL
      let payload := append_ansi payload "Content-Disposition: form-data; name=\""
      let payload := append_fstring payload key
      let payload := append_ansi payload ("\"" ++ ENDL)
      let payload := append_ansi payload ENDL
      let payload := append_fstring payload value
      let payload := append_ansi payload ENDL
      appendFields E terminator fields rest payload
    | none => appendFields E terminator fields rest payload

/-- The switch on `file.type` (lines 188-206): `Binary` and every value that is not
named in a case leave the initial `application/octet-stream`. -/
def contentTypeOf (type : CodecksFileType) : FString :=
  if type = CodecksFileType.PlainText then "text/plain"
  else if type = CodecksFileType.JSON then "application/json"
  else if type = CodecksFileType.PNG then "image/png"
  else if type = CodecksFileType.JPG then "image/jpeg"
  else "application/octet-stream"

/-- One iteration of the loop over `uploadUrls` (lines 99-264): the buffer after the
iteration and the request it processes, if it gets that far. -/
def processUpload (E : Engine) (terminator : String) (files : List FCodecksFileInfo)
    (payload : List Nat) (upload : FJsonValue) : List Nat × Option HttpRequest :=
  let payload := Reset payload
  let doc := upload.AsObject
  match doc.TryGetStringField E "fileName" with
  | none => (payload, none)
  | some fileName =>
    match files.find? (fun fi => E.Equals fi.filename fileName) with
    | none => (payload, none)
    | some file =>
      match doc.TryGetStringField E "url" with
      | none => (payload, none)
      | some uriQuery =>
        match doc.TryGetObjectField E "fields" with
        | none => (payload, none)
        | some fields =>
          let pRequest := CreateRequest
          let pRequest := pRequest.SetVerb "POST"
          let metaContentType : FString := "multipart/form-data; boundary=\""
          let metaContentType := metaContentType ++ terminator
          let metaContentType := metaContentType ++ "\""
          let pRequest := pRequest.SetHeader "Content-Type" metaContentType
          let payload := appendFields E terminator fields fieldNames payload
          let contentType := contentTypeOf file.type
          let payload := append_ansi payload "--"
          let payload := append_ansi payload terminator
          let payload := append_ansi payload ENDL
          let payload := append_ansi payload
            ("Content-Disposition: form-data; name=\"Content-Type\"" ++ ENDL ++ ENDL)
          let payload := append_fstring payload contentType
          let payload := append_ansi payload ENDL
          let payload := append_ansi payload "--"
          let payload := append_ansi payload terminator
          let payload := append_ansi payload ENDL
          let payload := append_ansi payload "Content-Type: "
          let payload := append_fstring payload contentType
          let payload := append_ansi payload ENDL
          let payload := append_ansi payload
            "Content-Disposition: form-data; name=\"file\"; filename=\""
          let payload := append_fstring payload fileName
          let payload := append_ansi payload ENDL
          let payload := append_ansi payload ENDL
          let payload := payload ++ file.data
          let payload := append_ansi payload (ENDL ++ "--")
          let payload := append_ansi payload terminator
          let payload := append_ansi payload "--"
          let pRequest := pRequest.SetContent payload
          let pRequest := pRequest.SetURL uriQuery
          (payload, some pRequest)

/-- The loop over `uploadUrls` (lines 97-265), threading the one `payload` buffer. -/
def uploadLoop (E : Engine) (terminator : String) (files : List FCodecksFileInfo) :
    List FJsonValue → List Nat → List Effect → List Effect
  | [], _, out => out
  | upload :: rest, payload, out =>
    match processUpload E terminator files payload upload with
    | (payload, some pRequest) =>
      uploadLoop E terminator files rest payload (out ++ [Effect.ProcessRequest pRequest])
    | (payload, none) => uploadLoop E terminator files rest payload out

def ProcessCardCreationResponse (E : Engine) (Deserialize : FString → Option FJsonObject)
    (rand : Nat → Nat) (ResponseContent : FString) (files : List FCodecksFileInfo) :
    List Effect :=
  let OutObject := Deserialize ResponseContent
  let ok : Bool :=
    match OutObject with
    | some obj => (obj.TryGetBoolField E "ok").getD false
    | none => false
  let message : FString :=
    match OutObject with
    | some obj => (obj.TryGetStringField E "message").getD "Unknown Error"
    | none => "Unknown Error"
  if !ok then
    [Effect.errorCallback ("Error creating card: " ++ message ++ "."),
     Effect.createdCallback CodecksCardCreationStatus.Fail]
  else
    let payload : List Nat := []
    let terminator := terminator rand
    match OutObject with
    | none => [] -- not reached: `ok` is only set from a parsed object
    | some obj =>
      match obj.TryGetArrayField E "uploadUrls" with
      | some uploadUrls => uploadLoop E terminator files uploadUrls payload []
      | none => []

/-! ## `UCodecksCardCreator::CreateNewCodecksCard` (lines 269-360) -/

/-- The JSON object the function builds (lines 295-323). -/
def CreateNewCodecksCard_json (TrimStartAndEnd : FString → FString)
    (cardTextContent : FString) (files : List FCodecksFileInfo)
    (severity : CodecksSeverity) (userEmail : FString) : FJsonObject :=
  let json : FJsonObject := []
  let json := json.SetStringField "content" cardTextContent
  let json :=
    match severity with
    | CodecksSeverity.Critical => json.SetStringField "severity" "critical"
    | CodecksSeverity.High => json.SetStringField "severity" "high"
    | CodecksSeverity.Low => json.SetStringField "severity" "low"
    | _ => json
  let cleanMail := TrimStartAndEnd userEmail
  let json := if !cleanMail.isEmpty then json.SetStringField "userEmail" cleanMail else json
  let jFileNames := files.map (fun file => FJsonValue.Str file.filename)
  json.SetArrayField "fileNames" jFileNames

/-- The completion handler bound to the create-report request (lines 332-357). -/
def CreateNewCodecksCard_OnProcessRequestComplete (E : Engine)
    (Deserialize : FString → Option FJsonObject) (rand : Nat → Nat)
    (fileArray : List FCodecksFileInfo) (connectedSuccessfully : Bool)
    (status : EHttpRequestStatus) (content : FString) : List Effect :=
  if connectedSuccessfully then
    if fileArray.length = 0 then
      [Effect.createdCallback CodecksCardCreationStatus.Success]
    else
      ProcessCardCreationResponse E Deserialize rand content fileArray
  else
    (if status = EHttpRequestStatus.Failed_ConnectionError then
      [Effect.errorCallback "Connection failed."]
    else
      [Effect.errorCallback "Request failed."]) ++
    [Effect.createdCallback CodecksCardCreationStatus.Fail]

/-! ## `UCodecksCardCreator::TakeScreenshotHelper` (lines 362-379) -/

/-- The screenshot-captured delegate and what the plugin keeps next to it.  A handler
added by `TakeScreenshotHelper` is the pair of its delegate handle and of the caller
callback its lambda captured (callbacks are told apart by a number). -/
structure Viewport where
  /-- invocation list of `UGameViewportClient::OnScreenshotCaptured()` -/
  OnScreenshotCaptured : List (Nat × Nat)
  /-- the next fresh delegate handle -/
  nextHandle : Nat
  /-- the static `UCodecksCardCreator::screenshotDelegateHandle` (`none`: not set) -/
  screenshotDelegateHandle : Option Nat
  /-- the caller callbacks executed so far, with the file each received -/
  executed : List (Nat × FCodecksFileInfo)
  deriving DecidableEq, Repr

def Viewport.initial : Viewport :=
  { OnScreenshotCaptured := [], nextHandle := 0, screenshotDelegateHandle := none,
    executed := [] }

/-- The call `OnScreenshotCaptured().Remove(handle)`. -/
def Viewport.Remove (v : Viewport) (handle : Option Nat) : Viewport :=
  { v with OnScreenshotCaptured :=
      v.OnScreenshotCaptured.filter (fun h => !(some h.1 == handle)) }

/-- The body of `TakeScreenshotHelper`: the lambda is added and its handle stored in the
static member. -/
def TakeScreenshotHelper (v : Viewport) (createdCallback : Nat) : Viewport :=
  { v with
    OnScreenshotCaptured := v.OnScreenshotCaptured ++ [(v.nextHandle, createdCallback)]
    nextHandle := v.nextHandle + 1
    screenshotDelegateHandle := some v.nextHandle }

/-- The lambda of lines 366-376, run for the callback it captured. -/
def screenshotLambda (compress : Nat → Nat → List Nat → List Nat) (createdCallback : Nat)
    (Width Height : Nat) (Colors : List Nat) (v : Viewport) : Viewport :=
  let v := v.Remove v.screenshotDelegateHandle
  let screenshotFile : FCodecksFileInfo :=
    { filename := "codecksCardScreenshot.png", type := CodecksFileType.PNG,
      data := compress Width Height Colors }
  { v with executed := v.executed ++ [(createdCallback, screenshotFile)] }

/-- The handlers of `pending` are run in turn.  With `skipRemoved`, a handler that was
removed from the delegate in the meantime is not run. -/
def broadcastList (compress : Nat → Nat → List Nat → List Nat) (skipRemoved : Bool)
    (Width Height : Nat) (Colors : List Nat) : List (Nat × Nat) → Viewport → Viewport
  | [], v => v
  | h :: pending, v =>
    if !skipRemoved || v.OnScreenshotCaptured.any (fun g => g.1 == h.1) then
      broadcastList compress skipRemoved Width Height Colors pending
        (screenshotLambda compress h.2 Width Height Colors v)
    else
      broadcastList compress skipRemoved Width Height Colors pending v

/-- A screenshot-captured event: the delegate broadcasts to the handlers bound when the
event starts.  How the engine does it is left open by two flags: the handlers run last
added first when `lastFirst` is set and first added first otherwise, and a handler
removed during the broadcast is left out when `skipRemoved` is set and still run
otherwise. -/
def Broadcast (compress : Nat → Nat → List Nat → List Nat) (lastFirst skipRemoved : Bool)
    (Width Height : Nat) (Colors : List Nat) (v : Viewport) : Viewport :=
  let pending := if lastFirst then v.OnScreenshotCaptured.reverse else v.OnScreenshotCaptured
  broadcastList compress skipRemoved Width Height Colors pending v

/-- What happens to the viewport: a call of `TakeScreenshotHelper` with a callback, or a
screenshot-captured event. -/
inductive ScreenshotEvent where
  | call (createdCallback : Nat)
  | captured (Width Height : Nat) (Colors : List Nat)
  deriving DecidableEq, Repr

def stepScreenshot (compress : Nat → Nat → List Nat → List Nat) (lastFirst skipRemoved : Bool)
    (v : Viewport) : ScreenshotEvent → Viewport
  | ScreenshotEvent.call cb => TakeScreenshotHelper v cb
  | ScreenshotEvent.captured w h c => Broadcast compress lastFirst skipRemoved w h c v

def runScreenshot (compress : Nat → Nat → List Nat → List Nat) (lastFirst skipRemoved : Bool)
    (events : List ScreenshotEvent) : Viewport :=
  events.foldl (stepScreenshot compress lastFirst skipRemoved) Viewport.initial

/-! ## Vocabulary of the statements -/

/-- The characters of a narrow string (a literal, the boundary) as `uint8` values. -/
def bytesOf (str : String) : List Nat :=
  str.toList.map (fun c => c.toNat % 256)

/-- The bytes written for an `FString`: each of its `TCHAR`s as a `uint8`. -/
def fstringBytes (str : FString) : List Nat :=
  (FString.TCHARs str).map (fun c => c % 256)

/-- The requests a trace processes, in order. -/
def requestsOf (trace : List Effect) : List HttpRequest :=
  trace.filterMap (fun e => match e with
    | Effect.ProcessRequest r => some r
    | _ => none)

/-- The statuses a trace hands to the created callback, in order. -/
def createdOf (trace : List Effect) : List CodecksCardCreationStatus :=
  trace.filterMap (fun e => match e with
    | Effect.createdCallback s => some s
    | _ => none)

/-- The messages a trace hands to the error callback, in order. -/
def errorsOf (trace : List Effect) : List FString :=
  trace.filterMap (fun e => match e with
    | Effect.errorCallback m => some m
    | _ => none)

/-- An entry of `uploadUrls` that has all it takes to be uploaded. -/
structure UploadEntry where
  fileName : FString
  url : FString
  fields : FJsonObject
  file : FCodecksFileInfo

/-- Specification side: an entry is complete when the getters give it a string
`fileName`, a string `url` and an object `fields`, and `fileName` is equal, by the
comparison of `FString`s, to the filename of an attached file; its file is the first
attached file of which this is true. -/
def completeEntry (E : Engine) (files : List FCodecksFileInfo) (entry : FJsonValue) :
    Option UploadEntry :=
  match entry.AsObject.TryGetStringField E "fileName",
      entry.AsObject.TryGetStringField E "url", entry.AsObject.TryGetObjectField E "fields" with
  | some fileName, some url, some fields =>
    match files.find? (fun fi => E.Equals fi.filename fileName) with
    | some file => some { fileName := fileName, url := url, fields := fields, file := file }
    | none => none
  | _, _, _ => none

/-- Specification side: the form fields sent, in the order in which they are sent. -/
def specFieldNames : List String :=
  ["key", "Cache-Control", "acl", "bucket", "X-Amz-Algorithm", "X-Amz-Credential",
   "X-Amz-Date", "Policy", "X-Amz-Signature"]

/-- Specification side: one form field,
`--B CRLF Content-Disposition: form-data; name="<name>" CRLF CRLF <value> CRLF`. -/
def formField (B : String) (name : String) (value : FString) : List Nat :=
  bytesOf ("--" ++ B ++ "\r\n" ++ "Content-Disposition: form-data; name=\"" ++ name ++ "\""
    ++ "\r\n" ++ "\r\n") ++ fstringBytes value ++ bytesOf "\r\n"

/-- Specification side: the form-field section of a body, the fields of `names` for which
the string getter gives a value, one after the other. -/
def formFieldSection (E : Engine) (B : String) (fields : FJsonObject) (names : List String) :
    List Nat :=
  (names.filterMap
    (fun name => (fields.TryGetStringField E name).map (formField B name))).flatten

/-- Specification side: the part of a body that announces the MIME type, as the form
field `Content-Type` and as the `Content-Type` header of the file part. -/
def mimeSection (B : String) (mime : FString) : List Nat :=
  bytesOf ("--" ++ B ++ "\r\n" ++ "Content-Disposition: form-data; name=\"Content-Type\""
    ++ "\r\n" ++ "\r\n" ++ mime ++ "\r\n") ++
  bytesOf ("--" ++ B ++ "\r\n" ++ "Content-Type: " ++ mime ++ "\r\n")

/-- The request built for a complete entry, in closed form. -/
def uploadRequest (E : Engine) (B : String) (u : UploadEntry) : HttpRequest :=
  { Verb := "POST"
    URL := u.url
    Headers := [("Content-Type", "multipart/form-data; boundary=\"" ++ B ++ "\"")]
    Content := formFieldSection E B u.fields specFieldNames ++
      mimeSection B (contentTypeOf u.file.type) ++
      bytesOf "Content-Disposition: form-data; name=\"file\"; filename=\"" ++
      fstringBytes u.fileName ++ bytesOf "\r\n" ++ bytesOf "\r\n" ++ u.file.data ++
      bytesOf ("\r\n" ++ "--" ++ B ++ "--") }

/-! ## Sample inputs -/

/-- An engine whose comparison ignores the case of ASCII letters, whose string getter
also renders a boolean as text and whose boolean getter also reads a number. -/
def sampleEngine : LawfulEngine where
  Equals a b := a.toList.map Char.toLower == b.toList.map Char.toLower
  KeyEquals a b := a.toList.map Char.toLower == b.toList.map Char.toLower
  TryGetString v :=
    match v with
    | FJsonValue.Str s => some s
    | FJsonValue.Boolean b => some (if b then "true" else "false")
    | _ => none
  TryGetBool v :=
    match v with
    | FJsonValue.Boolean b => some b
    | FJsonValue.Number n => some (n != 0)
    | _ => none
  Equals_self := by
    intro a
    simp
  Equals_case := by
    intro a b h
    simpa using h
  KeyEquals_self := by
    intro a
    simp
  KeyEquals_case := by
    intro a b h
    simpa using h
  TryGetString_Str := by
    intro s
    rfl
  TryGetBool_Boolean := by
    intro b
    rfl

def sampleFile : FCodecksFileInfo :=
  { filename := "a.txt", type := CodecksFileType.PlainText, data := [1, 2, 255] }

def sampleEntry : FJsonValue :=
  FJsonValue.Obj [("fileName", FJsonValue.Str "a.txt"), ("url", FJsonValue.Str "https://bucket/upload"),
    ("fields", FJsonValue.Obj [("acl", FJsonValue.Str "private"), ("key", FJsonValue.Str "k1"),
      ("extra", FJsonValue.Str "unlisted")])]

/-- A response that accepts the card and offers one upload. -/
def sampleAccepted : FJsonObject :=
  [("ok", FJsonValue.Boolean true), ("uploadUrls", FJsonValue.Arr [sampleEntry])]

/-- A response that accepts the card and offers no upload. -/
def sampleNoUploads : FJsonObject :=
  [("ok", FJsonValue.Boolean true)]

/-- A response that rejects the card. -/
def sampleRejected : FJsonObject :=
  [("ok", FJsonValue.Boolean false), ("message", FJsonValue.Str "Invalid token")]

/-- A `rand()` that always returns 0. -/
def zeroRand : Nat → Nat := fun _ => 0

def sampleBoundary : String := "TERMINATOR00000000000000000000000000000000"

/-- The request processed for `sampleAccepted` and `sampleFile`. -/
def sampleRequest : HttpRequest :=
  { Verb := "POST"
    URL := "https://bucket/upload"
    Headers := [("Content-Type",
      "multipart/form-data; boundary=\"TERMINATOR00000000000000000000000000000000\"")]
    Content :=
      bytesOf ("--TERMINATOR00000000000000000000000000000000\r\n" ++
        "Content-Disposition: form-data; name=\"key\"\r\n" ++
        "\r\n" ++
        "k1\r\n" ++
        "--TERMINATOR00000000000000000000000000000000\r\n" ++
        "Content-Disposition: form-data; name=\"acl\"\r\n" ++
        "\r\n" ++
        "private\r\n" ++
        "--TERMINATOR00000000000000000000000000000000\r\n" ++
        "Content-Disposition: form-data; name=\"Content-Type\"\r\n" ++
        "\r\n" ++
        "text/plain\r\n" ++
        "--TERMINATOR00000000000000000000000000000000\r\n" ++
        "Content-Type: text/plain\r\n" ++
        "Content-Disposition: form-data; name=\"file\"; filename=\"a.txt\r\n" ++
        "\r\n") ++
      [1, 2, 255] ++
      bytesOf "\r\n--TERMINATOR00000000000000000000000000000000--" }

/-- The entry `sampleEntry` with its fields in another order and another unlisted
field. -/
def sampleEntryReordered : FJsonValue :=
  FJsonValue.Obj [("fields", FJsonValue.Obj [("key", FJsonValue.Str "k1"),
      ("unlisted", FJsonValue.Number 7), ("acl", FJsonValue.Str "private")]),
    ("url", FJsonValue.Str "https://bucket/upload"), ("fileName", FJsonValue.Str "a.txt")]

/-- The character U+1F600, above U+FFFF: two `TCHAR`s, `0xD83D` and `0xDE00`. -/
def wideChar : String := String.mk [Char.ofNat 0x1F600]

/-- An attached file whose name holds a character above U+FFFF and whose type is none of
the named values. -/
def sampleFileWide : FCodecksFileInfo :=
  { filename := "s" ++ wideChar ++ ".png", type := { value := 9 }, data := [0, 255] }

/-- An entry for `sampleFileWide` that writes the file name in capitals, whose `key` is a
boolean stored in capitals and whose `acl` holds a character above U+FFFF. -/
def sampleEntryLoose : FJsonValue :=
  FJsonValue.Obj [("fileName", FJsonValue.Str ("S" ++ wideChar ++ ".PNG")),
    ("url", FJsonValue.Str "https://bucket/upload"),
    ("fields", FJsonValue.Obj [("KEY", FJsonValue.Boolean true),
      ("acl", FJsonValue.Str ("p" ++ wideChar))])]

/-- A response that accepts the card with a number for `ok` and offers the upload
`sampleEntryLoose`. -/
def sampleAcceptedLoose : FJsonObject :=
  [("OK", FJsonValue.Number 1), ("uploadUrls", FJsonValue.Arr [sampleEntryLoose])]

/-- The request processed for `sampleAcceptedLoose` and `sampleFileWide` by `sampleEngine`:
the character above U+FFFF is written as the two bytes `0x3D`, `0x00`. -/
def sampleRequestLoose : HttpRequest :=
  { Verb := "POST"
    URL := "https://bucket/upload"
    Headers := [("Content-Type",
      "multipart/form-data; boundary=\"TERMINATOR00000000000000000000000000000000\"")]
    Content :=
      bytesOf ("--TERMINATOR00000000000000000000000000000000\r\n" ++
        "Content-Disposition: form-data; name=\"key\"\r\n" ++
        "\r\n" ++
        "true\r\n" ++
        "--TERMINATOR00000000000000000000000000000000\r\n" ++
        "Content-Disposition: form-data; name=\"acl\"\r\n" ++
        "\r\n" ++
        "p") ++
      [0x3D, 0x00] ++
      bytesOf ("\r\n" ++
        "--TERMINATOR00000000000000000000000000000000\r\n" ++
        "Content-Disposition: form-data; name=\"Content-Type\"\r\n" ++
        "\r\n" ++
        "application/octet-stream\r\n" ++
        "--TERMINATOR00000000000000000000000000000000\r\n" ++
        "Content-Type: application/octet-stream\r\n" ++
        "Content-Disposition: form-data; name=\"file\"; filename=\"S") ++
      [0x3D, 0x00] ++
      bytesOf (".PNG\r\n" ++
        "\r\n") ++
      [0, 255] ++
      bytesOf "\r\n--TERMINATOR00000000000000000000000000000000--" }

/-! ## Lemmas on the buffer helpers -/

theorem bytesOf_append (s t : String) : bytesOf (s ++ t) = bytesOf s ++ bytesOf t := by
  simp [bytesOf]

theorem append_ansi_eq (data : List Nat) (str : String) :
    append_ansi data str = data ++ bytesOf str := by
  simp [append_ansi, append_data, bytesOf]

theorem append_fstring_eq (data : List Nat) (str : FString) :
    append_fstring data str = data ++ fstringBytes str := by
  simp [append_fstring, fstringBytes]

theorem fstringBytes_surrogate_pair :
    fstringBytes (String.mk [Char.ofNat 0x1F600]) = [0x3D, 0x00] ∧
    fstringBytes "a.txt" = bytesOf "a.txt" := by
  constructor <;> decide

theorem fieldNames_ascii : ∀ name ∈ fieldNames, fstringBytes name = bytesOf name := by
  decide

theorem contentTypeOf_ascii (type : CodecksFileType) :
    fstringBytes (contentTypeOf type) = bytesOf (contentTypeOf type) := by
  unfold contentTypeOf
  split_ifs <;> decide

theorem appendFields_eq (E : Engine) (B : String) (fields : FJsonObject) (names : List String)
    (hnames : ∀ name ∈ names, fstringBytes name = bytesOf name) (payload : List Nat) :
    appendFields E B fields names payload = payload ++ formFieldSection E B fields names := by
  induction names generalizing payload with
  | nil => simp [appendFields, formFieldSection]
  | cons name rest ih =>
    have hkey : ("" : String) ++ name = name := by
      apply String.ext
      simp
    have hname := hnames name (List.mem_cons_self name rest)
    have ih2 := ih (fun n hn => hnames n (List.mem_cons_of_mem name hn))
    unfold appendFields
    simp only [hkey]
    cases hv : fields.TryGetStringField E name with
    | none =>
      simp only [ih2]
      simp [formFieldSection, hv]
    | some value =>
      simp only [ih2, append_ansi_eq, append_fstring_eq, formFieldSection, formField, hv, hname,
        List.filterMap_cons, Option.map_some', List.flatten_cons, bytesOf_append, ENDL,
        List.append_assoc]

theorem processUpload_request (E : Engine) (B : String) (files : List FCodecksFileInfo)
    (payload : List Nat) (upload : FJsonValue) :
    (processUpload E B files payload upload).2 =
      (completeEntry E files upload).map (uploadRequest E B) := by
  simp only [processUpload, completeEntry]
  cases h1 : upload.AsObject.TryGetStringField E "fileName" with
  | none => simp
  | some fileName =>
    cases h2 : files.find? (fun fi => E.Equals fi.filename fileName) with
    | none =>
      cases h3 : upload.AsObject.TryGetStringField E "url" <;>
        cases h4 : upload.AsObject.TryGetObjectField E "fields" <;> simp [h2]
    | some file =>
      cases h3 : upload.AsObject.TryGetStringField E "url" with
      | none => simp [h2]
      | some url =>
        cases h4 : upload.AsObject.TryGetObjectField E "fields" with
        | none => simp [h2]
        | some fields =>
          have hspec : specFieldNames = fieldNames := rfl
          simp only [h2, Option.map_some', Option.some.injEq]
          simp only [uploadRequest, hspec, appendFields_eq E B fields fieldNames fieldNames_ascii,
            append_ansi_eq, append_fstring_eq, contentTypeOf_ascii, Reset,
            mimeSection, bytesOf_append, ENDL, CreateRequest, HttpRequest.SetVerb,
            HttpRequest.SetHeader, HttpRequest.SetContent, HttpRequest.SetURL,
            List.append_assoc, List.nil_append, List.filter_nil]

theorem uploadLoop_eq (E : Engine) (B : String) (files : List FCodecksFileInfo)
    (entries : List FJsonValue) (payload : List Nat) (out : List Effect) :
    uploadLoop E B files entries payload out =
      out ++ ((entries.filterMap (completeEntry E files)).map
        (fun u => Effect.ProcessRequest (uploadRequest E B u))) := by
  induction entries generalizing payload out with
  | nil => simp [uploadLoop]
  | cons e rest ih =>
    have h := processUpload_request E B files payload e
    unfold uploadLoop
    cases hp : processUpload E B files payload e with
    | mk p r =>
      rw [hp] at h
      cases r with
      | none =>
        simp only at h
        cases hc : completeEntry E files e with
        | none => simp [ih, hc]
        | some u => simp [hc] at h
      | some req =>
        simp only at h
        cases hc : completeEntry E files e with
        | none => simp [hc] at h
        | some u =>
          simp [hc] at h
          simp [ih, hc, h]

/-! ## Lemmas on the handlers -/

theorem requestsOf_map_ProcessRequest (rs : List HttpRequest) :
    requestsOf (rs.map Effect.ProcessRequest) = rs := by
  induction rs with
  | nil => rfl
  | cons r rest ih =>
    simp only [requestsOf, List.map_cons, List.filterMap_cons] at ih ⊢
    rw [ih]

theorem ProcessCardCreationResponse_ok (E : Engine) (Deserialize : FString → Option FJsonObject)
    (rand : Nat → Nat) (content : FString) (files : List FCodecksFileInfo) (obj : FJsonObject)
    (hparse : Deserialize content = some obj) (hok : obj.TryGetBoolField E "ok" = some true) :
    ProcessCardCreationResponse E Deserialize rand content files =
      ((((obj.TryGetArrayField E "uploadUrls").getD []).filterMap (completeEntry E files)).map
        (uploadRequest E (terminator rand))).map Effect.ProcessRequest := by
  simp only [ProcessCardCreationResponse, hparse, hok, Option.getD_some, Bool.not_true,
    Bool.false_eq_true, if_false]
  cases ha : obj.TryGetArrayField E "uploadUrls" with
  | none => simp
  | some entries => simp [uploadLoop_eq]

theorem ProcessCardCreationResponse_not_ok (E : Engine)
    (Deserialize : FString → Option FJsonObject)
    (rand : Nat → Nat) (content : FString) (files : List FCodecksFileInfo)
    (hok : ∀ obj, Deserialize content = some obj → obj.TryGetBoolField E "ok" ≠ some true) :
    ProcessCardCreationResponse E Deserialize rand content files =
      [Effect.errorCallback ("Error creating card: " ++
          (((Deserialize content).bind (fun obj => obj.TryGetStringField E "message")).getD
            "Unknown Error") ++ "."),
       Effect.createdCallback CodecksCardCreationStatus.Fail] := by
  cases hd : Deserialize content with
  | none => simp [ProcessCardCreationResponse, hd]
  | some obj =>
    have h := hok obj hd
    cases hb : obj.TryGetBoolField E "ok" with
    | none => simp [ProcessCardCreationResponse, hd, hb]
    | some b =>
      cases b with
      | true => exact absurd hb h
      | false => simp [ProcessCardCreationResponse, hd, hb]

theorem completeEntry_nil (E : Engine) (entry : FJsonValue) : completeEntry E [] entry = none := by
  unfold completeEntry
  split
  · simp
  · rfl

theorem completeEntry_find (E : Engine) (files : List FCodecksFileInfo) (entry : FJsonValue)
    (u : UploadEntry) (h : completeEntry E files entry = some u) :
    entry.AsObject.TryGetStringField E "fileName" = some u.fileName ∧
    entry.AsObject.TryGetStringField E "url" = some u.url ∧
    entry.AsObject.TryGetObjectField E "fields" = some u.fields ∧
    files.find? (fun fi => E.Equals fi.filename u.fileName) = some u.file := by
  unfold completeEntry at h
  split at h
  · rename_i fileName url fields h1 h2 h3
    split at h
    · rename_i file hfile
      cases h
      exact ⟨h1, h2, h3, hfile⟩
    · cases h
  · cases h

theorem requests_of_complete (E : Engine) (Deserialize : FString → Option FJsonObject)
    (rand : Nat → Nat) (content : FString) (files : List FCodecksFileInfo)
    (status : EHttpRequestStatus) (obj : FJsonObject)
    (hparse : Deserialize content = some obj) (hok : obj.TryGetBoolField E "ok" = some true) :
    requestsOf (CreateNewCodecksCard_OnProcessRequestComplete E Deserialize rand files true
        status content) =
      (((obj.TryGetArrayField E "uploadUrls").getD []).filterMap (completeEntry E files)).map
        (uploadRequest E (terminator rand)) := by
  unfold CreateNewCodecksCard_OnProcessRequestComplete
  by_cases hf : files.length = 0
  · have hnil : files = [] := List.length_eq_zero.mp hf
    subst hnil
    have : ((obj.TryGetArrayField E "uploadUrls").getD []).filterMap (completeEntry E []) = [] := by
      apply List.filterMap_eq_nil_iff.mpr
      intro e _
      exact completeEntry_nil E e
    simp [this, requestsOf]
  · simp only [if_true, hf, if_false]
    rw [ProcessCardCreationResponse_ok E Deserialize rand content files obj hparse hok,
      requestsOf_map_ProcessRequest]

theorem request_of_processed (E : Engine) (Deserialize : FString → Option FJsonObject)
    (rand : Nat → Nat) (content : FString) (files : List FCodecksFileInfo) (r : HttpRequest)
    (hr : r ∈ requestsOf (ProcessCardCreationResponse E Deserialize rand content files)) :
    ∃ obj entries e u, Deserialize content = some obj ∧
      obj.TryGetArrayField E "uploadUrls" = some entries ∧ e ∈ entries ∧
      completeEntry E files e = some u ∧ r = uploadRequest E (terminator rand) u := by
  cases hd : Deserialize content with
  | none =>
    rw [ProcessCardCreationResponse_not_ok E Deserialize rand content files
      (by intro obj ho; rw [hd] at ho; cases ho)] at hr
    simp [requestsOf] at hr
  | some obj =>
    by_cases hok : obj.TryGetBoolField E "ok" = some true
    · rw [ProcessCardCreationResponse_ok E Deserialize rand content files obj hd hok,
        requestsOf_map_ProcessRequest] at hr
      obtain ⟨u, hu, rfl⟩ := List.mem_map.mp hr
      obtain ⟨e, hmem, he⟩ := List.mem_filterMap.mp hu
      cases ha : obj.TryGetArrayField E "uploadUrls" with
      | none =>
        rw [ha] at hmem
        cases hmem
      | some entries =>
        rw [ha] at hmem
        exact ⟨obj, entries, e, u, rfl, ha, hmem, he, rfl⟩
    · rw [ProcessCardCreationResponse_not_ok E Deserialize rand content files
        (by intro o ho; rw [hd] at ho; cases ho; exact hok)] at hr
      simp [requestsOf] at hr

theorem filterMap_length_of_isSome {α β : Type} (f : α → Option β) (l : List α)
    (h : ∀ x ∈ l, (f x).isSome = true) : (l.filterMap f).length = l.length := by
  induction l with
  | nil => rfl
  | cons x rest ih =>
    have hx := h x (List.mem_cons_self x rest)
    obtain ⟨y, hy⟩ := Option.isSome_iff_exists.mp hx
    have hrest := ih (fun z hz => h z (List.mem_cons_of_mem x hz))
    simp [List.filterMap_cons, hy, hrest]

theorem find?_eq_head?_filter {α : Type} (p : α → Bool) (l : List α) :
    l.find? p = (l.filter p).head? := by
  induction l with
  | nil => rfl
  | cons x rest ih =>
    cases hx : p x with
    | true => simp only [List.find?_cons, List.filter_cons, hx, if_true, List.head?_cons]
    | false =>
      simp only [List.find?_cons, List.filter_cons, hx, Bool.false_eq_true, if_false]
      exact ih

theorem find?_perm {α : Type} (p : α → Bool) {l₁ l₂ : List α} (hperm : l₁.Perm l₂)
    (hone : (l₂.filter p).length ≤ 1) : l₁.find? p = l₂.find? p := by
  have hf := hperm.filter p
  rw [find?_eq_head?_filter, find?_eq_head?_filter]
  cases h2 : l₂.filter p with
  | nil =>
    rw [h2] at hf
    rw [List.perm_nil.mp hf]
  | cons x rest =>
    cases rest with
    | nil =>
      rw [h2] at hf
      rw [List.perm_singleton.mp hf]
    | cons y rest2 =>
      rw [h2] at hone
      simp at hone

theorem lawful_TryGetField (L : LawfulEngine) (obj : FJsonObject) (name : FString)
    (h : ∀ kv ∈ obj, kv.1.toList.map Char.toLower = name.toList.map Char.toLower → kv.1 = name) :
    obj.TryGetField L.toEngine name = obj.lookup name := by
  induction obj with
  | nil => rfl
  | cons kv rest ih =>
    obtain ⟨k, v⟩ := kv
    have hrest := ih (fun x hx => h x (List.mem_cons_of_mem _ hx))
    unfold FJsonObject.TryGetField at hrest ⊢
    cases hk : L.KeyEquals k name with
    | true =>
      have hkn : k = name := h (k, v) (List.mem_cons_self _ _) (L.KeyEquals_case k name hk)
      subst hkn
      simp only [List.find?_cons, hk, List.lookup_cons, beq_self_eq_true, Option.map_some']
    | false =>
      have hne : (name == k) = false := by
        cases hb : name == k with
        | false => rfl
        | true =>
          have hnk : name = k := by simpa using hb
          rw [hnk, L.KeyEquals_self] at hk
          cases hk
      simp only [List.find?_cons, hk, List.lookup_cons, hne]
      exact hrest

theorem terminator_shape (rand : Nat → Nat) :
    ∃ digits : List Char, digits.length = 32 ∧ (∀ d ∈ digits, d ∈ "0123456789".toList) ∧
      terminator rand = "TERMINATOR" ++ String.mk digits := by
  refine ⟨(List.range 32).map (fun i => "0123456789".toList.getD (rand i % 10) '0'), ?_, ?_, rfl⟩
  · simp
  · intro d hd
    obtain ⟨i, _, rfl⟩ := List.mem_map.mp hd
    have hlt : rand i % 10 < 10 := Nat.mod_lt _ (by decide)
    generalize rand i % 10 = n at hlt
    interval_cases n <;> decide

/-! ## The sample inputs under any lawful engine -/

set_option maxRecDepth 100000

theorem sampleRejected_ok (L : LawfulEngine) :
    sampleRejected.TryGetBoolField L.toEngine "ok" = some false := by
  unfold FJsonObject.TryGetBoolField
  rw [lawful_TryGetField L sampleRejected "ok" (by decide)]
  simp [sampleRejected, List.lookup, L.TryGetBool_Boolean]

theorem sampleRejected_message (L : LawfulEngine) :
    sampleRejected.TryGetStringField L.toEngine "message" = some "Invalid token" := by
  unfold FJsonObject.TryGetStringField
  rw [lawful_TryGetField L sampleRejected "message" (by decide)]
  simp [sampleRejected, List.lookup, L.TryGetString_Str]

theorem sampleAccepted_ok (L : LawfulEngine) :
    sampleAccepted.TryGetBoolField L.toEngine "ok" = some true := by
  unfold FJsonObject.TryGetBoolField
  rw [lawful_TryGetField L sampleAccepted "ok" (by decide)]
  simp [sampleAccepted, List.lookup, L.TryGetBool_Boolean]

theorem sampleAccepted_uploadUrls (L : LawfulEngine) :
    sampleAccepted.TryGetArrayField L.toEngine "uploadUrls" = some [sampleEntry] := by
  unfold FJsonObject.TryGetArrayField
  rw [lawful_TryGetField L sampleAccepted "uploadUrls" (by decide)]
  simp [sampleAccepted, List.lookup]

theorem sampleNoUploads_ok (L : LawfulEngine) :
    sampleNoUploads.TryGetBoolField L.toEngine "ok" = some true := by
  unfold FJsonObject.TryGetBoolField
  rw [lawful_TryGetField L sampleNoUploads "ok" (by decide)]
  simp [sampleNoUploads, List.lookup, L.TryGetBool_Boolean]

theorem sampleNoUploads_uploadUrls (L : LawfulEngine) :
    sampleNoUploads.TryGetArrayField L.toEngine "uploadUrls" = none := by
  unfold FJsonObject.TryGetArrayField
  rw [lawful_TryGetField L sampleNoUploads "uploadUrls" (by decide)]
  simp [sampleNoUploads, List.lookup]

theorem sampleEntry_getters (L : LawfulEngine) :
    sampleEntry.AsObject.TryGetStringField L.toEngine "fileName" = some "a.txt" ∧
    sampleEntry.AsObject.TryGetStringField L.toEngine "url" = some "https://bucket/upload" ∧
    sampleEntry.AsObject.TryGetObjectField L.toEngine "fields" =
      some [("acl", FJsonValue.Str "private"), ("key", FJsonValue.Str "k1"),
        ("extra", FJsonValue.Str "unlisted")] := by
  refine ⟨?_, ?_, ?_⟩
  · unfold FJsonObject.TryGetStringField
    rw [lawful_TryGetField L sampleEntry.AsObject "fileName" (by decide)]
    simp [sampleEntry, FJsonValue.AsObject, List.lookup, L.TryGetString_Str]
  · unfold FJsonObject.TryGetStringField
    rw [lawful_TryGetField L sampleEntry.AsObject "url" (by decide)]
    simp [sampleEntry, FJsonValue.AsObject, List.lookup, L.TryGetString_Str]
  · unfold FJsonObject.TryGetObjectField
    rw [lawful_TryGetField L sampleEntry.AsObject "fields" (by decide)]
    simp [sampleEntry, FJsonValue.AsObject, List.lookup]

theorem sampleEntry_other_file (L : LawfulEngine) :
    completeEntry L.toEngine
      [{ filename := "b.txt", type := CodecksFileType.PlainText, data := [] }]
      sampleEntry = none := by
  have hne : L.Equals "b.txt" "a.txt" = false := by
    cases h : L.Equals "b.txt" "a.txt" with
    | false => rfl
    | true => exact absurd (L.Equals_case _ _ h) (by decide)
  obtain ⟨h1, h2, h3⟩ := sampleEntry_getters L
  simp [completeEntry, h1, h2, h3, hne]

theorem sampleEntry_complete (L : LawfulEngine) :
    completeEntry L.toEngine [sampleFile] sampleEntry =
      some { fileName := "a.txt", url := "https://bucket/upload",
             fields := [("acl", FJsonValue.Str "private"), ("key", FJsonValue.Str "k1"),
               ("extra", FJsonValue.Str "unlisted")],
             file := sampleFile } := by
  have heq : L.Equals sampleFile.filename "a.txt" = true := L.Equals_self "a.txt"
  obtain ⟨h1, h2, h3⟩ := sampleEntry_getters L
  simp [completeEntry, h1, h2, h3, heq]

theorem sampleEntry_request (L : LawfulEngine) :
    uploadRequest L.toEngine (terminator zeroRand)
      { fileName := "a.txt", url := "https://bucket/upload",
        fields := [("acl", FJsonValue.Str "private"), ("key", FJsonValue.Str "k1"),
          ("extra", FJsonValue.Str "unlisted")],
        file := sampleFile } = sampleRequest := by
  have hall : ∀ name ∈ specFieldNames,
      ∀ kv ∈ ([("acl", FJsonValue.Str "private"), ("key", FJsonValue.Str "k1"),
        ("extra", FJsonValue.Str "unlisted")] : FJsonObject),
      kv.1.toList.map Char.toLower = name.toList.map Char.toLower → kv.1 = name := by
    decide
  have hget : specFieldNames.filterMap
      (fun name => (FJsonObject.TryGetStringField
        [("acl", FJsonValue.Str "private"), ("key", FJsonValue.Str "k1"),
          ("extra", FJsonValue.Str "unlisted")] L.toEngine name).map
        (formField (terminator zeroRand) name)) =
      [formField (terminator zeroRand) "key" "k1",
        formField (terminator zeroRand) "acl" "private"] := by
    have hcongr := List.filterMap_congr (l := specFieldNames)
      (f := fun name => (FJsonObject.TryGetStringField
        [("acl", FJsonValue.Str "private"), ("key", FJsonValue.Str "k1"),
          ("extra", FJsonValue.Str "unlisted")] L.toEngine name).map
        (formField (terminator zeroRand) name))
      (g := fun name => ((match List.lookup name
          [("acl", FJsonValue.Str "private"), ("key", FJsonValue.Str "k1"),
            ("extra", FJsonValue.Str "unlisted")] with
          | some Field => L.TryGetString Field
          | none => none)).map (formField (terminator zeroRand) name))
      (by
        intro name hn
        simp only [FJsonObject.TryGetStringField]
        rw [lawful_TryGetField L _ name (hall name hn)])
    rw [hcongr]
    simp [specFieldNames, List.lookup, L.TryGetString_Str]
  unfold uploadRequest
  simp only [formFieldSection, hget, List.flatten_cons, List.flatten_nil, List.append_nil]
  decide

theorem sampleAccepted_trace (L : LawfulEngine) (files : List FCodecksFileInfo) :
    ProcessCardCreationResponse L.toEngine (fun _ => some sampleAccepted) zeroRand "accepted" files =
      (([sampleEntry].filterMap (completeEntry L.toEngine files)).map
        (uploadRequest L.toEngine (terminator zeroRand))).map Effect.ProcessRequest := by
  rw [ProcessCardCreationResponse_ok L.toEngine (fun _ => some sampleAccepted) zeroRand
    "accepted" files sampleAccepted rfl (sampleAccepted_ok L), sampleAccepted_uploadUrls]
  rfl

/-! ## The claims -/

/-- C1 (code defect). With an empty list of attached files the completion handler of the
create-report request reports `Success` without looking at the response: for a response
that rejects the card (`ok` false, message `Invalid token`) there is no error callback
and no `Fail`, whereas `ProcessCardCreationResponse`, on the same response, reports the
error and `Fail`.  This holds for every lawful engine. -/
theorem C1_empty_file_list_reports_success (L : LawfulEngine) :
    CreateNewCodecksCard_OnProcessRequestComplete L.toEngine (fun _ => some sampleRejected) zeroRand []
        true EHttpRequestStatus.Succeeded "rejected" =
      [Effect.createdCallback CodecksCardCreationStatus.Success] ∧
    ProcessCardCreationResponse L.toEngine (fun _ => some sampleRejected) zeroRand "rejected" [] =
      [Effect.errorCallback "Error creating card: Invalid token.",
       Effect.createdCallback CodecksCardCreationStatus.Fail] := by
  constructor
  · rfl
  · rw [ProcessCardCreationResponse_not_ok L.toEngine (fun _ => some sampleRejected) zeroRand "rejected" []
      (by
        intro obj ho
        cases ho
        rw [sampleRejected_ok]
        decide)]
    simp only [Option.bind, sampleRejected_message, Option.getD_some]
    have hmsg : "Error creating card: " ++ "Invalid token" ++ "." =
        "Error creating card: Invalid token." := by decide
    rw [hmsg]

/-- C2 (code defect). For an accepted response (`ok` true) from which no upload is
started, the completion handler of the create-report request does nothing at all: no
created callback, no error callback, no request.  This is so when the response has no
`uploadUrls` and when its only entry names a file that is not attached.  This holds for
every lawful engine. -/
theorem C2_accepted_without_upload_is_silent (L : LawfulEngine) :
    CreateNewCodecksCard_OnProcessRequestComplete L.toEngine (fun _ => some sampleNoUploads) zeroRand
        [sampleFile] true EHttpRequestStatus.Succeeded "accepted" = [] ∧
    CreateNewCodecksCard_OnProcessRequestComplete L.toEngine (fun _ => some sampleAccepted) zeroRand
        [{ filename := "b.txt", type := CodecksFileType.PlainText, data := [] }] true
        EHttpRequestStatus.Succeeded "accepted" = [] := by
  constructor
  · have h := ProcessCardCreationResponse_ok L.toEngine (fun _ => some sampleNoUploads) zeroRand "accepted"
      [sampleFile] sampleNoUploads rfl (sampleNoUploads_ok L)
    simp only [CreateNewCodecksCard_OnProcessRequestComplete, if_true, sampleFile,
      List.length_singleton, Nat.succ_ne_zero, if_false] at h ⊢
    rw [h, sampleNoUploads_uploadUrls]
    rfl
  · simp only [CreateNewCodecksCard_OnProcessRequestComplete, if_true,
      List.length_singleton, Nat.succ_ne_zero, if_false]
    rw [sampleAccepted_trace]
    simp [sampleEntry_other_file]

/-- C3. When the create-report request did not connect, whatever the attached files, the
response body, the JSON reader and the engine: the trace is one error callback followed by one
created callback with `Fail` and nothing else (so no upload request); the message is
`Connection failed.` exactly when the status is `Failed_ConnectionError`, and
`Request failed.` exactly when it is not. -/
theorem C3_not_connected_reports_fail (E : Engine)
    (Deserialize : FString → Option FJsonObject) (rand : Nat → Nat) (files : List FCodecksFileInfo) (status : EHttpRequestStatus)
    (content : FString) :
    ∃ msg : FString,
      CreateNewCodecksCard_OnProcessRequestComplete E Deserialize rand files false status content =
        [Effect.errorCallback msg, Effect.createdCallback CodecksCardCreationStatus.Fail] ∧
      (msg = "Connection failed." ↔ status = EHttpRequestStatus.Failed_ConnectionError) ∧
      (msg = "Request failed." ↔ status ≠ EHttpRequestStatus.Failed_ConnectionError) := by
  by_cases h : status = EHttpRequestStatus.Failed_ConnectionError
  · refine ⟨"Connection failed.", ?_, ?_, ?_⟩
    · simp [CreateNewCodecksCard_OnProcessRequestComplete, h]
    · simp [h]
    · simp only [h, ne_eq, not_true_eq_false, iff_false]
      decide
  · refine ⟨"Request failed.", ?_, ?_, ?_⟩
    · simp [CreateNewCodecksCard_OnProcessRequestComplete, h]
    · simp only [h, iff_false]
      decide
    · simp [h]

/-- C4. When an upload request settles, the trace is: the created callback alone, with
`Success`, if the connection succeeded and the content does not contain `Error`; and
otherwise one error callback followed by the created callback with `Partially`, the
message being `Error Uploading File: <content>.` on a connection, `Connection failed.`
for the status `Failed_ConnectionError` and `Request failed.` for any other status.  So
the created callback runs exactly once, never with `Fail`, and the error callback runs
(once, first) exactly when the status is `Partially`. -/
theorem C4_upload_complete_reports_once (Contains : FString → FString → Bool)
    (connectedSuccessfully : Bool) (status : EHttpRequestStatus) (content : FString) :
    UploadComplete Contains connectedSuccessfully status content =
      (if connectedSuccessfully = true ∧ Contains content "Error" = false then
        [Effect.createdCallback CodecksCardCreationStatus.Success]
      else
        [Effect.errorCallback
          (if connectedSuccessfully = true then "Error Uploading File: " ++ content ++ "."
           else if status = EHttpRequestStatus.Failed_ConnectionError then "Connection failed."
           else "Request failed."),
         Effect.createdCallback CodecksCardCreationStatus.Partially]) ∧
    (createdOf (UploadComplete Contains connectedSuccessfully status content)).length = 1 ∧
    CodecksCardCreationStatus.Fail ∉
      createdOf (UploadComplete Contains connectedSuccessfully status content) ∧
    ((errorsOf (UploadComplete Contains connectedSuccessfully status content)).length = 1 ↔
      createdOf (UploadComplete Contains connectedSuccessfully status content) =
        [CodecksCardCreationStatus.Partially]) ∧
    ((errorsOf (UploadComplete Contains connectedSuccessfully status content)).length = 0 ↔
      createdOf (UploadComplete Contains connectedSuccessfully status content) =
        [CodecksCardCreationStatus.Success]) := by
  cases connectedSuccessfully with
  | true =>
    cases hc : Contains content "Error" <;>
      simp [UploadComplete, hc, createdOf, errorsOf]
  | false =>
    by_cases hs : status = EHttpRequestStatus.Failed_ConnectionError <;>
      simp [UploadComplete, hs, createdOf, errorsOf]


theorem forall₂_exists_of_mem {α β : Type} {R : α → β → Prop} {l₁ : List α} {l₂ : List β}
    (h : List.Forall₂ R l₁ l₂) : ∀ a ∈ l₁, ∃ b ∈ l₂, R a b := by
  induction h with
  | nil =>
    intro a ha
    cases ha
  | cons hab _ ih =>
    intro a ha
    rcases List.mem_cons.mp ha with rfl | hmem
    · exact ⟨_, List.mem_cons_self _ _, hab⟩
    · obtain ⟨b, hb, hr⟩ := ih a hmem
      exact ⟨b, List.mem_cons_of_mem _ hb, hr⟩

/-- C5. For a response that parses to an object for which the getter gives `ok` true,
whatever the attached files (the empty list included) and the engine: the requests
processed correspond one to one, in the order of `uploadUrls`, to the entries that are
complete (a string `fileName` that the comparison of `FString`s finds equal to the
filename of an attached file, a string `url`, an object `fields`, each as its getter
gives it); the request of an entry is a POST to the entry's `url`, its only header is
`Content-Type: multipart/form-data; boundary="B"` with `B` the boundary, and its body
carries, right before the closing `CRLF--B--`, the data of the first attached file whose
filename the comparison finds equal to the entry's `fileName`.  Every other entry gives no
request.  If every entry has a `url` and `fields` and the entries can be paired one to one
with the attached files so that each entry's `fileName` is equal to the filename of its
file, there are as many requests as attached files. -/
theorem C5_uploads_follow_complete_entries (E : Engine)
    (Deserialize : FString → Option FJsonObject)
    (rand : Nat → Nat) (content : FString) (files : List FCodecksFileInfo)
    (status : EHttpRequestStatus) (obj : FJsonObject)
    (hparse : Deserialize content = some obj) (hok : obj.TryGetBoolField E "ok" = some true) :
    List.Forall₂
      (fun (r : HttpRequest) (u : UploadEntry) =>
        r.Verb = "POST" ∧ r.URL = u.url ∧
        r.Headers =
          [("Content-Type", "multipart/form-data; boundary=\"" ++ terminator rand ++ "\"")] ∧
        files.find? (fun fi => E.Equals fi.filename u.fileName) = some u.file ∧
        ∃ head : List Nat,
          r.Content = head ++ u.file.data ++ bytesOf ("\r\n" ++ "--" ++ terminator rand ++ "--"))
      (requestsOf (CreateNewCodecksCard_OnProcessRequestComplete E Deserialize rand files true
        status content))
      (((obj.TryGetArrayField E "uploadUrls").getD []).filterMap (completeEntry E files)) ∧
    ((∀ e ∈ (obj.TryGetArrayField E "uploadUrls").getD [],
        ∃ url fields, e.AsObject.TryGetStringField E "url" = some url ∧
          e.AsObject.TryGetObjectField E "fields" = some fields) →
      (∃ paired : List FCodecksFileInfo, paired.Perm files ∧
        List.Forall₂
          (fun (e : FJsonValue) (fi : FCodecksFileInfo) =>
            ∃ fileName, e.AsObject.TryGetStringField E "fileName" = some fileName ∧
              E.Equals fi.filename fileName = true)
          ((obj.TryGetArrayField E "uploadUrls").getD []) paired) →
      (requestsOf (CreateNewCodecksCard_OnProcessRequestComplete E Deserialize rand files true
        status content)).length = files.length) := by
  rw [requests_of_complete E Deserialize rand content files status obj hparse hok]
  generalize (obj.TryGetArrayField E "uploadUrls").getD [] = entries
  constructor
  · rw [List.forall₂_map_left_iff, List.forall₂_same]
    intro u hu
    obtain ⟨e, _, he⟩ := List.mem_filterMap.mp hu
    refine ⟨rfl, rfl, rfl, (completeEntry_find E files e u he).2.2.2, ?_⟩
    refine ⟨formFieldSection E (terminator rand) u.fields specFieldNames ++
      mimeSection (terminator rand) (contentTypeOf u.file.type) ++
      bytesOf "Content-Disposition: form-data; name=\"file\"; filename=\"" ++
      fstringBytes u.fileName ++ bytesOf "\r\n" ++ bytesOf "\r\n", ?_⟩
    simp only [uploadRequest, List.append_assoc]
  · intro hcomplete hpaired
    obtain ⟨paired, hperm, hpair⟩ := hpaired
    rw [List.length_map]
    have hall : ∀ e ∈ entries, (completeEntry E files e).isSome = true := by
      intro e he
      obtain ⟨url, fields, h2, h3⟩ := hcomplete e he
      obtain ⟨fi, hfi, fileName, h1, heq⟩ := forall₂_exists_of_mem hpair e he
      have hfind : (files.find? (fun fi => E.Equals fi.filename fileName)).isSome = true := by
        rw [List.find?_isSome]
        exact ⟨fi, hperm.subset hfi, heq⟩
      obtain ⟨file, hfile⟩ := Option.isSome_iff_exists.mp hfind
      simp [completeEntry, h1, h2, h3, hfile]
    rw [filterMap_length_of_isSome _ _ hall, hpair.length_eq, hperm.length_eq]

/-- C5, at a sample: for an engine that ignores case and converts values, the response
`sampleAcceptedLoose`, whose entry writes the file name in capitals, and the attached file
`sampleFileWide` give one request. -/
theorem C5_uploads_follow_complete_entries_witness :
    (requestsOf (CreateNewCodecksCard_OnProcessRequestComplete sampleEngine.toEngine
      (fun _ => some sampleAcceptedLoose) zeroRand [sampleFileWide] true
      EHttpRequestStatus.Succeeded "accepted")).length = [sampleFileWide].length :=
  (C5_uploads_follow_complete_entries sampleEngine.toEngine (fun _ => some sampleAcceptedLoose)
    zeroRand "accepted" [sampleFileWide] EHttpRequestStatus.Succeeded sampleAcceptedLoose
    rfl (by decide)).2
    (by
      intro e he
      have hentries : (sampleAcceptedLoose.TryGetArrayField sampleEngine.toEngine
          "uploadUrls").getD [] = [sampleEntryLoose] := rfl
      rw [hentries] at he
      have he2 : e = sampleEntryLoose := by simpa using he
      subst he2
      exact ⟨"https://bucket/upload",
        [("KEY", FJsonValue.Boolean true), ("acl", FJsonValue.Str ("p" ++ wideChar))],
        rfl, rfl⟩)
    ⟨[sampleFileWide], List.Perm.refl _,
      List.Forall₂.cons ⟨"S" ++ wideChar ++ ".PNG", rfl, by decide⟩ List.Forall₂.nil⟩

/-- C6. The JSON object built by `CreateNewCodecksCard` is, field by field: `content` with
the card text; then `severity` with `low`, `high` or `critical` for `Low`, `High`,
`Critical` and no such field for `None`; then `userEmail` with the trimmed email if the
trimmed email is not empty and no such field if it is; then `fileNames` with the array of
the filenames of the attached files in list order.  There is no other field. -/
theorem C6_request_json (TrimStartAndEnd : FString → FString) (cardTextContent : FString)
    (files : List FCodecksFileInfo) (severity : CodecksSeverity) (userEmail : FString) :
    CreateNewCodecksCard_json TrimStartAndEnd cardTextContent files severity userEmail =
      [("content", FJsonValue.Str cardTextContent)] ++
      (match severity with
        | CodecksSeverity.None => []
        | CodecksSeverity.Low => [("severity", FJsonValue.Str "low")]
        | CodecksSeverity.High => [("severity", FJsonValue.Str "high")]
        | CodecksSeverity.Critical => [("severity", FJsonValue.Str "critical")]) ++
      (if TrimStartAndEnd userEmail = "" then []
        else [("userEmail", FJsonValue.Str (TrimStartAndEnd userEmail))]) ++
      [("fileNames", FJsonValue.Arr (files.map (fun file => FJsonValue.Str file.filename)))] := by
  unfold CreateNewCodecksCard_json
  generalize TrimStartAndEnd userEmail = cleanMail
  by_cases hmail : cleanMail = ""
  · subst hmail
    have hempty : ("" : String).isEmpty = true := rfl
    cases severity <;>
      simp [FJsonObject.SetStringField, FJsonObject.SetArrayField, FJsonObject.SetField, hempty]
  · have hempty : cleanMail.isEmpty = false := by
      cases h : cleanMail.isEmpty with
      | false => rfl
      | true => exact absurd ((String.isEmpty_iff _).mp h) hmail
    cases severity <;>
      simp [FJsonObject.SetStringField, FJsonObject.SetArrayField, FJsonObject.SetField, hmail,
        hempty]


/-- C7 (code defect). For the attached file `a.txt` the one request processed has the
body of `sampleRequest`: its disposition line is
`Content-Disposition: form-data; name="file"; filename="a.txt` followed by CRLF, with no
double quote after the file name (the form fields before it close theirs), so the line
with the closing quote occurs nowhere in the body and the body holds an odd number of
double quotes.  This holds for every lawful engine. -/
theorem C7_filename_quote_not_closed (L : LawfulEngine) :
    ProcessCardCreationResponse L.toEngine (fun _ => some sampleAccepted) zeroRand "accepted"
        [sampleFile] =
      [Effect.ProcessRequest sampleRequest] ∧
    bytesOf "Content-Disposition: form-data; name=\"file\"; filename=\"a.txt\r\n\r\n" <:+:
      sampleRequest.Content ∧
    ¬ (bytesOf "Content-Disposition: form-data; name=\"file\"; filename=\"a.txt\"\r\n" <:+:
      sampleRequest.Content) ∧
    sampleRequest.Content.count 34 % 2 = 1 := by
  refine ⟨?_, by decide, by decide, by decide⟩
  rw [sampleAccepted_trace]
  simp [sampleEntry_complete, sampleEntry_request]

/-- C8. Every request processed for a response, whatever the engine, has the boundary
`B` of that response, `TERMINATOR` followed by 32 decimal digits, in its `Content-Type`
header, and its body is some head, then the MIME type of the file as the form field
`Content-Type` and as the `Content-Type` header of the file part, then the disposition
line up to the file name (its `TCHAR`s as bytes), then CRLF CRLF (the end of the
disposition line and the empty line), then the bytes of the attached file as they are,
then `CRLF--B--` and nothing more.  The file is the first attached file whose filename the
comparison of `FString`s finds equal to the name in the disposition line, and the MIME
type is `text/plain` for `PlainText`, `application/json` for `JSON`, `image/png` for
`PNG`, `image/jpeg` for `JPG`, and `application/octet-stream` for `Binary` and for every
other value of the type. -/
theorem C8_file_part_carries_type_and_bytes (E : Engine)
    (Deserialize : FString → Option FJsonObject)
    (rand : Nat → Nat) (content : FString) (files : List FCodecksFileInfo) (r : HttpRequest)
    (hr : r ∈ requestsOf (ProcessCardCreationResponse E Deserialize rand content files)) :
    (∃ digits : List Char, digits.length = 32 ∧ (∀ d ∈ digits, d ∈ "0123456789".toList) ∧
      terminator rand = "TERMINATOR" ++ String.mk digits) ∧
    r.Headers =
      [("Content-Type", "multipart/form-data; boundary=\"" ++ terminator rand ++ "\"")] ∧
    (∃ (file : FCodecksFileInfo) (fileName : FString) (head : List Nat),
      files.find? (fun fi => E.Equals fi.filename fileName) = some file ∧
      r.Content =
        head ++ mimeSection (terminator rand) (contentTypeOf file.type) ++
        bytesOf "Content-Disposition: form-data; name=\"file\"; filename=\"" ++
        fstringBytes fileName ++
        bytesOf "\r\n\r\n" ++ file.data ++ bytesOf ("\r\n--" ++ terminator rand ++ "--")) ∧
    contentTypeOf CodecksFileType.PlainText = "text/plain" ∧
    contentTypeOf CodecksFileType.JSON = "application/json" ∧
    contentTypeOf CodecksFileType.PNG = "image/png" ∧
    contentTypeOf CodecksFileType.JPG = "image/jpeg" ∧
    contentTypeOf CodecksFileType.Binary = "application/octet-stream" ∧
    (∀ type : CodecksFileType, type ≠ CodecksFileType.PlainText →
      type ≠ CodecksFileType.JSON → type ≠ CodecksFileType.PNG →
      type ≠ CodecksFileType.JPG → contentTypeOf type = "application/octet-stream") := by
  obtain ⟨_, _, e, u, _, _, _, he, rfl⟩ :=
    request_of_processed E Deserialize rand content files r hr
  refine ⟨terminator_shape rand, rfl, ?_, rfl, rfl, rfl, rfl, rfl, ?_⟩
  · refine ⟨u.file, u.fileName, formFieldSection E (terminator rand) u.fields specFieldNames,
      (completeEntry_find E files e u he).2.2.2, ?_⟩
    have h1 : ("\r\n\r\n" : String) = "\r\n" ++ "\r\n" := by decide
    have h2 : ("\r\n--" : String) = "\r\n" ++ "--" := by decide
    simp only [uploadRequest, h1, h2, bytesOf_append, List.append_assoc]
  · intro type h1 h2 h3 h4
    simp [contentTypeOf, h1, h2, h3, h4]

/-- C8, at a sample: for an engine that ignores case and converts values,
`sampleRequestLoose` is processed for the response `sampleAcceptedLoose` and the file
`sampleFileWide`, and its header names the boundary. -/
theorem C8_file_part_carries_type_and_bytes_witness :
    sampleRequestLoose ∈ requestsOf (ProcessCardCreationResponse sampleEngine.toEngine
      (fun _ => some sampleAcceptedLoose) zeroRand "accepted" [sampleFileWide]) ∧
    sampleRequestLoose.Headers =
      [("Content-Type", "multipart/form-data; boundary=\"" ++ terminator zeroRand ++ "\"")] :=
  ⟨by decide,
    (C8_file_part_carries_type_and_bytes sampleEngine.toEngine
      (fun _ => some sampleAcceptedLoose) zeroRand "accepted" [sampleFileWide]
      sampleRequestLoose (by decide)).2.1⟩

/-- C9. Every request that `ProcessCardCreationResponse` processes is what one entry of
`uploadUrls` gives on its own from an empty buffer: the loop over `uploadUrls` processes
what each entry gives from an empty buffer, whatever the buffer held before.  For an entry that gives a request, the
body begins with the form-field section of the entry's `fields`: for each of `key`,
`Cache-Control`, `acl`, `bucket`, `X-Amz-Algorithm`, `X-Amz-Credential`, `X-Amz-Date`,
`Policy`, `X-Amz-Signature`, in this order, for which the string getter gives a value, the
bytes `--B CRLF Content-Disposition: form-data; name="<name>" CRLF CRLF <value> CRLF`
(the value as the bytes of its `TCHAR`s), and then goes on with the `Content-Type` form
field.  An entry with the same `fileName` and `url`, started from any buffer, gives the
same request as soon as the getter gives the same values for the listed names in its
`fields` (so other fields are not sent), and in particular when its `fields` are the same
fields in another order, the object holding, as a map does, at most one field under each
listed name.  This holds for every engine. -/
theorem C9_form_field_section (E : Engine) (B : String) (files : List FCodecksFileInfo)
    (payload : List Nat) (upload : FJsonValue) (r : HttpRequest)
    (h : (processUpload E B files payload upload).2 = some r) :
    (∀ (Deserialize : FString → Option FJsonObject) (rand : Nat → Nat) (content : FString)
        (request : HttpRequest),
      request ∈ requestsOf (ProcessCardCreationResponse E Deserialize rand content files) →
      ∃ obj entries entry, Deserialize content = some obj ∧
        obj.TryGetArrayField E "uploadUrls" = some entries ∧ entry ∈ entries ∧
        (processUpload E (terminator rand) files [] entry).2 = some request) ∧
    (∀ (entries : List FJsonValue) (buffer : List Nat) (out : List Effect),
      uploadLoop E B files entries buffer out =
        out ++ (entries.filterMap (fun e => (processUpload E B files [] e).2)).map
          Effect.ProcessRequest) ∧
    ∃ fields : FJsonObject, upload.AsObject.TryGetObjectField E "fields" = some fields ∧
      (∃ rest : List Nat,
        r.Content = formFieldSection E B fields specFieldNames ++
          bytesOf ("--" ++ B ++ "\r\n" ++ "Content-Disposition: form-data; name=\"Content-Type\""
            ++ "\r\n" ++ "\r\n") ++ rest) ∧
      (∀ (payload2 : List Nat) (upload2 : FJsonValue) (fields2 : FJsonObject),
        upload2.AsObject.TryGetStringField E "fileName" =
          upload.AsObject.TryGetStringField E "fileName" →
        upload2.AsObject.TryGetStringField E "url" =
          upload.AsObject.TryGetStringField E "url" →
        upload2.AsObject.TryGetObjectField E "fields" = some fields2 →
        (∀ name ∈ specFieldNames,
          fields2.TryGetStringField E name = fields.TryGetStringField E name) →
        (processUpload E B files payload2 upload2).2 = some r) ∧
      (∀ (payload2 : List Nat) (upload2 : FJsonValue) (fields2 : FJsonObject),
        upload2.AsObject.TryGetStringField E "fileName" =
          upload.AsObject.TryGetStringField E "fileName" →
        upload2.AsObject.TryGetStringField E "url" =
          upload.AsObject.TryGetStringField E "url" →
        upload2.AsObject.TryGetObjectField E "fields" = some fields2 →
        fields2.Perm fields →
        (∀ name ∈ specFieldNames,
          (fields.filter (fun kv => E.KeyEquals kv.1 name)).length ≤ 1) →
        (processUpload E B files payload2 upload2).2 = some r) := by
  have hsame : ∀ (payload2 : List Nat) (upload2 : FJsonValue) (fields fields2 : FJsonObject),
      upload.AsObject.TryGetObjectField E "fields" = some fields →
      upload2.AsObject.TryGetStringField E "fileName" =
        upload.AsObject.TryGetStringField E "fileName" →
      upload2.AsObject.TryGetStringField E "url" = upload.AsObject.TryGetStringField E "url" →
      upload2.AsObject.TryGetObjectField E "fields" = some fields2 →
      (∀ name ∈ specFieldNames,
        fields2.TryGetStringField E name = fields.TryGetStringField E name) →
      (processUpload E B files payload2 upload2).2 = some r := by
    intro payload2 upload2 fields fields2 hf h1 h2 h3 hagree
    have hsec : formFieldSection E B fields2 specFieldNames =
        formFieldSection E B fields specFieldNames := by
      unfold formFieldSection
      congr 1
      apply List.filterMap_congr
      intro name hn
      rw [hagree name hn]
    rw [processUpload_request] at h ⊢
    unfold completeEntry at h ⊢
    rw [h1, h2, h3]
    rw [hf] at h
    cases hn : upload.AsObject.TryGetStringField E "fileName" with
    | none => simp [hn] at h
    | some fileName =>
      cases hu : upload.AsObject.TryGetStringField E "url" with
      | none => simp [hn, hu] at h
      | some url =>
        simp only [hn, hu] at h ⊢
        cases hfile : files.find? (fun fi => E.Equals fi.filename fileName) with
        | none => simp [hfile] at h
        | some file =>
          simp only [hfile, Option.map_some', Option.some.injEq] at h ⊢
          rw [← h]
          simp only [uploadRequest, hsec]
  refine ⟨?_, ?_, ?_⟩
  · intro Deserialize rand content request hmem
    obtain ⟨obj, entries, e, u, hd, ha, he, hc, rfl⟩ :=
      request_of_processed E Deserialize rand content files request hmem
    refine ⟨obj, entries, e, hd, ha, he, ?_⟩
    rw [processUpload_request, hc]
    rfl
  · intro entries buffer out
    have hfm : entries.filterMap (fun e => (processUpload E B files [] e).2) =
        (entries.filterMap (completeEntry E files)).map (uploadRequest E B) := by
      rw [List.map_filterMap]
      apply List.filterMap_congr
      intro e _
      rw [processUpload_request]
    rw [uploadLoop_eq, hfm, List.map_map]
    rfl
  · have hreq := h
    rw [processUpload_request] at hreq
    cases hc : completeEntry E files upload with
    | none => simp [hc] at hreq
    | some u =>
      have hfields : upload.AsObject.TryGetObjectField E "fields" = some u.fields :=
        (completeEntry_find E files upload u hc).2.2.1
      rw [hc] at hreq
      simp only [Option.map_some', Option.some.injEq] at hreq
      refine ⟨u.fields, hfields, ?_, ?_, ?_⟩
      · refine ⟨bytesOf (contentTypeOf u.file.type ++ "\r\n") ++
          bytesOf ("--" ++ B ++ "\r\n" ++ "Content-Type: " ++ contentTypeOf u.file.type ++ "\r\n")
          ++ bytesOf "Content-Disposition: form-data; name=\"file\"; filename=\"" ++
          fstringBytes u.fileName ++ bytesOf "\r\n" ++ bytesOf "\r\n" ++ u.file.data ++
          bytesOf ("\r\n" ++ "--" ++ B ++ "--"), ?_⟩
        rw [← hreq]
        simp only [uploadRequest, mimeSection, bytesOf_append, List.append_assoc]
      · intro payload2 upload2 fields2 h1 h2 h3 hagree
        exact hsame payload2 upload2 u.fields fields2 hfields h1 h2 h3 hagree
      · intro payload2 upload2 fields2 h1 h2 h3 hperm hone
        apply hsame payload2 upload2 u.fields fields2 hfields h1 h2 h3
        intro name hn
        unfold FJsonObject.TryGetStringField FJsonObject.TryGetField
        rw [find?_perm _ hperm (hone name hn)]

/-- C9, at a sample: the entry `sampleEntryReordered`, whose fields come in another order
and with another unlisted field, gives the request of `sampleEntry`. -/
theorem C9_form_field_section_witness :
    (processUpload sampleEngine.toEngine sampleBoundary [sampleFile] [] sampleEntryReordered).2 =
      some sampleRequest := by
  obtain ⟨fields, hf, _, hagree, _⟩ :=
    (C9_form_field_section sampleEngine.toEngine sampleBoundary [sampleFile] [7, 7] sampleEntry
      sampleRequest (by decide)).2.2
  have hfields : fields = [("acl", FJsonValue.Str "private"), ("key", FJsonValue.Str "k1"),
      ("extra", FJsonValue.Str "unlisted")] := by
    have h0 : sampleEntry.AsObject.TryGetObjectField sampleEngine.toEngine "fields" =
        some [("acl", FJsonValue.Str "private"), ("key", FJsonValue.Str "k1"),
          ("extra", FJsonValue.Str "unlisted")] := rfl
    rw [h0] at hf
    exact (Option.some.inj hf).symm
  subst hfields
  refine hagree [] sampleEntryReordered
    [("key", FJsonValue.Str "k1"), ("unlisted", FJsonValue.Number 7),
      ("acl", FJsonValue.Str "private")] rfl rfl rfl ?_
  intro name hn
  simp only [specFieldNames, List.mem_cons, List.mem_singleton, List.not_mem_nil, or_false] at hn
  rcases hn with rfl | rfl | rfl | rfl | rfl | rfl | rfl | rfl | rfl <;> rfl

/-- C10 (code defect). After two calls of `TakeScreenshotHelper` (callbacks 1 and 2) and
one screenshot-captured event, the handler of the first call is still on the delegate:
the static handle was overwritten by the second call, so both lambdas remove the second
handler.  A second event then runs callback 1 again, twice in all.  This holds for either
order in which the delegate runs its handlers and whether or not it still runs a handler
removed during the broadcast.  With a single call the handler is gone after the first
event and its callback runs once. -/
theorem C10_first_handler_stays_registered (compress : Nat → Nat → List Nat → List Nat)
    (lastFirst skipRemoved : Bool) (Width Height : Nat) (Colors : List Nat) :
    (runScreenshot compress lastFirst skipRemoved
      [ScreenshotEvent.call 1, ScreenshotEvent.call 2,
        ScreenshotEvent.captured Width Height Colors]).OnScreenshotCaptured = [(0, 1)] ∧
    ((runScreenshot compress lastFirst skipRemoved
      [ScreenshotEvent.call 1, ScreenshotEvent.call 2,
        ScreenshotEvent.captured Width Height Colors,
        ScreenshotEvent.captured Width Height Colors]).executed.filter
          (fun x => x.1 == 1)).length = 2 ∧
    (runScreenshot compress lastFirst skipRemoved
      [ScreenshotEvent.call 1, ScreenshotEvent.captured Width Height Colors,
        ScreenshotEvent.captured Width Height Colors]).OnScreenshotCaptured = [] ∧
    (runScreenshot compress lastFirst skipRemoved
      [ScreenshotEvent.call 1, ScreenshotEvent.captured Width Height Colors,
        ScreenshotEvent.captured Width Height Colors]).executed =
      [(1, { filename := "codecksCardScreenshot.png", type := CodecksFileType.PNG,
             data := compress Width Height Colors })] := by
  cases lastFirst <;> cases skipRemoved <;> refine ⟨rfl, rfl, rfl, rfl⟩

end Codecks
